import Mathlib

/-!
Verification of the branch-aware persistence layer of the DecisionTree
repository: tree-mutation helpers (`LifeTree.tsx`), the replicated
timeline read/write endpoints, the TiDB Cloud digest-authentication
client, and the rate limiter.  Each definition is a shallow embedding of
the corresponding TypeScript source.
-/

/- ### TreeMutator: `LifeNodeData`, `findNodeById`, `replaceSubtreeAtNode`
   (src/components/LifeTree.tsx) -/

/-- `type TimeFrame = "Now" | "1yr" | "3yr" | "5yr" | "10yr" | "20yr" | "30yr"` -/
inductive TimeFrame : Type where
  | now | y1 | y3 | y5 | y10 | y20 | y30
deriving DecidableEq

/-- `type Sentiment = "positive" | "neutral" | "negative"` -/
inductive Sentiment : Type where
  | positive | neutral | negative
deriving DecidableEq

/-- The non-recursive fields of `interface LifeNodeData`. -/
structure NodeData where
  nodeId : String
  title : String
  description : String
  timeframe : TimeFrame
  sentiment : Sentiment
  probability : Option Int
deriving DecidableEq

/-- `interface LifeNodeData` with its optional recursive `children` field. -/
inductive LifeNode : Type where
  | mk (data : NodeData) (children : Option (List LifeNode))

/-- Field accessor for the scalar fields of a node. -/
def LifeNode.data : LifeNode → NodeData
  | .mk d _ => d

/-- Field accessor for the optional `children` field. -/
def LifeNode.children : LifeNode → Option (List LifeNode)
  | .mk _ c => c

mutual

/-- `findNodeById` (LifeTree.tsx): return the node itself when the id
matches, otherwise scan `children` (when present) left to right. -/
def findNodeById (tree : LifeNode) (id : String) : Option LifeNode :=
  match tree with
  | .mk d ch =>
    if d.nodeId = id then some (.mk d ch)
    else
      match ch with
      | some cs => findInList cs id
      | none => none
termination_by sizeOf tree

/-- The `for (const child of tree.children)` loop inside `findNodeById`:
first successful recursive call wins. -/
def findInList (cs : List LifeNode) (id : String) : Option LifeNode :=
  match cs with
  | [] => none
  | c :: rest =>
    match findNodeById c id with
    | some found => some found
    | none => findInList rest id
termination_by sizeOf cs

end

mutual

/-- `replaceSubtreeAtNode` (LifeTree.tsx): on an id match return
`{ ...tree, children: newChildren }`; otherwise map the recursion over
`children` when present, and return the node untouched when it has no
`children` field. -/
def replaceSubtreeAtNode (tree : LifeNode) (nodeId : String)
    (newChildren : List LifeNode) : LifeNode :=
  match tree with
  | .mk d ch =>
    if d.nodeId = nodeId then .mk d (some newChildren)
    else
      match ch with
      | some cs => .mk d (some (replaceInList cs nodeId newChildren))
      | none => .mk d ch
termination_by sizeOf tree

/-- `tree.children.map((child) => replaceSubtreeAtNode(child, ...))`. -/
def replaceInList (cs : List LifeNode) (nodeId : String)
    (newChildren : List LifeNode) : List LifeNode :=
  match cs with
  | [] => []
  | c :: rest =>
    replaceSubtreeAtNode c nodeId newChildren :: replaceInList rest nodeId newChildren
termination_by sizeOf cs

end

mutual

/-- Depth-first (preorder / document-order) listing of all subtrees. -/
def preorder (tree : LifeNode) : List LifeNode :=
  match tree with
  | .mk d ch =>
    .mk d ch ::
      (match ch with
       | some cs => preorderList cs
       | none => [])
termination_by sizeOf tree

/-- Preorder listing of a forest, left to right. -/
def preorderList (cs : List LifeNode) : List LifeNode :=
  match cs with
  | [] => []
  | c :: rest => preorder c ++ preorderList rest
termination_by sizeOf cs

end

/-- All node identifiers of a tree in document order. -/
def treeIds (tree : LifeNode) : List String :=
  (preorder tree).map (fun n => n.data.nodeId)

/-- All node identifiers of a forest in document order. -/
def forestIds (cs : List LifeNode) : List String :=
  (preorderList cs).map (fun n => n.data.nodeId)

/-- `{ ...tree, children: newChildren }`: the node with only its
`children` field replaced. -/
def setChildren (tree : LifeNode) (newChildren : List LifeNode) : LifeNode :=
  match tree with
  | .mk d _ => .mk d (some newChildren)

mutual

/-- Mutual induction principle for `LifeNode` and forests of them. -/
theorem lifeNode_ind (P : LifeNode → Prop) (Q : List LifeNode → Prop)
    (hnil : Q [])
    (hcons : ∀ c rest, P c → Q rest → Q (c :: rest))
    (hmk : ∀ d ch, (∀ cs, ch = some cs → Q cs) → P (LifeNode.mk d ch)) :
    ∀ t, P t
  | .mk d none => hmk d none (fun _ h => nomatch h)
  | .mk d (some cs) =>
    hmk d (some cs) (fun cs' h => by
      cases h
      exact lifeNode_list_ind P Q hnil hcons hmk cs)
termination_by t => sizeOf t

/-- Forest half of the mutual induction principle. -/
theorem lifeNode_list_ind (P : LifeNode → Prop) (Q : List LifeNode → Prop)
    (hnil : Q [])
    (hcons : ∀ c rest, P c → Q rest → Q (c :: rest))
    (hmk : ∀ d ch, (∀ cs, ch = some cs → Q cs) → P (LifeNode.mk d ch)) :
    ∀ l, Q l
  | [] => hnil
  | c :: rest =>
    hcons c rest (lifeNode_ind P Q hnil hcons hmk c)
      (lifeNode_list_ind P Q hnil hcons hmk rest)
termination_by l => sizeOf l

end

/- ### ReplicatedRecordStore: the `timelines` table and its endpoints
   (src/unnamed/part_000: timelines GET/POST and timelines/[id] GET/PUT) -/

/-- A row of the `timelines` table (columns of the `CREATE TABLE` in the
init route); `NULL`able columns are `Option`s. -/
structure TimelineRow where
  id : String
  session_id : String
  name : String
  parent_timeline_id : Option String
  branch_id : Option String
  branch_host : Option String
  tree_data : String
  branched_from_node : Option String
deriving DecidableEq

/-- `UPDATE timelines SET tree_data = ? WHERE id = ?`. -/
def sqlUpdateTreeData (tbl : List TimelineRow) (td id : String) : List TimelineRow :=
  tbl.map fun r => if r.id = id then { r with tree_data := td } else r

/-- `INSERT INTO timelines (...) VALUES (...)` (plain insert). -/
def sqlInsertRow (tbl : List TimelineRow) (row : TimelineRow) : List TimelineRow :=
  tbl ++ [row]

/-- `INSERT INTO timelines (...) VALUES (...) ON DUPLICATE KEY UPDATE
tree_data = VALUES(tree_data)`: insert, or on an existing primary key
overwrite only the `tree_data` column. -/
def sqlInsertOnDupUpdateTreeData (tbl : List TimelineRow) (row : TimelineRow) :
    List TimelineRow :=
  if tbl.any (fun r => r.id = row.id) then
    tbl.map fun r => if r.id = row.id then { r with tree_data := row.tree_data } else r
  else tbl ++ [row]

/-- The upsert semantics in the spec's words: "insert, or if the key
already exists, overwrite the payload column only". -/
def upsertPayloadSpec (tbl : List TimelineRow) (row : TimelineRow) : List TimelineRow :=
  if tbl.any (fun r => r.id = row.id) then
    tbl.map fun r => if r.id = row.id then { r with tree_data := row.tree_data } else r
  else tbl ++ [row]

/-- `SELECT ... FROM timelines WHERE id = ?`. -/
def sqlSelectById (tbl : List TimelineRow) (id : String) : List TimelineRow :=
  tbl.filter fun r => r.id = id

/-- Store-write events, in the order the handler issues them. -/
inductive DbEvent : Type where
  | primaryWrite (ok : Bool)
  | branchWrite (host : String) (ok : Bool)
deriving DecidableEq

/-- Outcome of the branch-store `SELECT tree_data FROM timelines WHERE
id = ?`: the connection/query throws, or returns a list of `tree_data`
values. -/
inductive BranchReadOutcome : Type where
  | connFail
  | rows (treeDatas : List String)
deriving DecidableEq

/-- The JSON response of the timeline GET endpoint (fields relevant to
the read contract). -/
structure GetResult where
  status : Nat
  success : Bool
  treeData : Option String
  source : Option String
  error : Option String
deriving DecidableEq

/-- The `timelines/[id]` GET handler: read the primary row (404 when
absent); when the row has a `branch_host`, try the branch and prefer a
returned branch row, falling back to the primary payload on a thrown
branch error or an empty branch result. -/
def getTimeline (id : String) (mainTbl : List TimelineRow)
    (branchRead : BranchReadOutcome) : GetResult :=
  match (sqlSelectById mainTbl id).head? with
  | none => ⟨404, false, none, none, some "Timeline not found"⟩
  | some timeline =>
    match timeline.branch_host with
    | none => ⟨200, true, some timeline.tree_data, some "main", none⟩
    | some _ =>
      match branchRead with
      | .connFail => ⟨200, true, some timeline.tree_data, some "main", none⟩
      | .rows rs =>
        match rs.head? with
        | some btd => ⟨200, true, some btd, some "branch", none⟩
        | none => ⟨200, true, some timeline.tree_data, some "main", none⟩

/-- The JSON response of the timeline PUT endpoint. -/
structure PutResult where
  status : Nat
  success : Bool
  writtenTo : Option String
  error : Option String
deriving DecidableEq

/-- Full outcome of a PUT: response, both table states, and the ordered
trace of store writes. -/
structure PutOutcome where
  result : PutResult
  mainTbl : List TimelineRow
  branchTbl : List TimelineRow
  trace : List DbEvent
deriving DecidableEq

/-- The `timelines/[id]` PUT handler.  `primaryWriteOk` is whether the
primary `UPDATE` succeeds (a failure throws to the outer catch);
`branchWriteOk` is whether the branch connection + `UPDATE` succeed (a
failure is caught and downgrades `writtenTo` to `"main-only"`). -/
def putTimeline (id : String) (treeData : Option String)
    (mainTbl branchTbl : List TimelineRow)
    (primaryWriteOk branchWriteOk : Bool) : PutOutcome :=
  match treeData with
  | none => ⟨⟨400, false, none, some "treeData is required"⟩, mainTbl, branchTbl, []⟩
  | some td =>
    match (sqlSelectById mainTbl id).head? with
    | none => ⟨⟨404, false, none, some "Timeline not found"⟩, mainTbl, branchTbl, []⟩
    | some t0 =>
      if primaryWriteOk then
        match t0.branch_host with
        | none =>
          ⟨⟨200, true, some "main", none⟩, sqlUpdateTreeData mainTbl td id, branchTbl,
            [.primaryWrite true]⟩
        | some h =>
          if branchWriteOk then
            ⟨⟨200, true, some "both", none⟩, sqlUpdateTreeData mainTbl td id,
              sqlUpdateTreeData branchTbl td id,
              [.primaryWrite true, .branchWrite h true]⟩
          else
            ⟨⟨200, true, some "main-only", none⟩, sqlUpdateTreeData mainTbl td id, branchTbl,
              [.primaryWrite true, .branchWrite h false]⟩
      else
        ⟨⟨500, false, none, some "Failed to update timeline"⟩, mainTbl, branchTbl,
          [.primaryWrite false]⟩

/-- JS falsiness of an optional string: absent or empty. -/
def strFalsy : Option String → Bool
  | none => true
  | some s => s = ""

/-- `x || null`: an empty string is stored as SQL `NULL`. -/
def orNull (s : Option String) : Option String :=
  if strFalsy s then none else s

/-- Oracle inputs for the timeline POST handler: the generated id and
the outcomes of its control-plane calls and store writes. -/
structure PostOracle where
  timelineId : String
  createThrows : Bool
  createOk : Bool
  assignedBranchId : Option String
  detailsThrows : Bool
  detailsOk : Bool
  detailsHost : Option String
  primaryInsertOk : Bool
  branchInsertOk : Bool

/-- The branch-provisioning prologue of the POST handler: returns the
`branchId` and `branchHost` values in scope when the row is written.
An exception anywhere in the inner try is caught and keeps whatever was
already assigned. -/
def provisionBranch (createBranch : Bool) (clusterId : Option String)
    (o : PostOracle) : Option String × Option String :=
  if createBranch then
    match clusterId with
    | none => (none, none)
    | some _ =>
      if o.createThrows then (none, none)
      else if o.createOk then
        if o.detailsThrows then (o.assignedBranchId, none)
        else if o.detailsOk then (o.assignedBranchId, o.detailsHost)
        else (o.assignedBranchId, none)
      else (none, none)
  else (none, none)

/-- The JSON response of the timeline POST endpoint. -/
structure PostResult where
  status : Nat
  success : Bool
  timelineId : Option String
  branchId : Option String
  branchHost : Option String
  hasBranch : Bool
  error : Option String
deriving DecidableEq

/-- Full outcome of a POST: response, both table states, and the ordered
trace of store writes. -/
structure PostOutcome where
  result : PostResult
  mainTbl : List TimelineRow
  branchTbl : List TimelineRow
  trace : List DbEvent
deriving DecidableEq

/-- The timelines POST handler (create). Required-field validation, the
optional branch provisioning, the primary `INSERT`, then — only when a
branch host is known — the best-effort branch upsert. -/
def postTimeline (sessionId name treeData : String)
    (parentTimelineId branchedFromNode : Option String) (createBranch : Bool)
    (clusterId : Option String) (o : PostOracle)
    (mainTbl branchTbl : List TimelineRow) : PostOutcome :=
  if sessionId = "" ∨ name = "" ∨ treeData = "" then
    ⟨⟨400, false, none, none, none, false,
       some "sessionId, name, and treeData are required"⟩, mainTbl, branchTbl, []⟩
  else
    let bid_host := provisionBranch createBranch clusterId o
    let row : TimelineRow :=
      ⟨o.timelineId, sessionId, name, orNull parentTimelineId, bid_host.1, bid_host.2,
        treeData, orNull branchedFromNode⟩
    if o.primaryInsertOk then
      match bid_host.2 with
      | none =>
        ⟨⟨200, true, some o.timelineId, bid_host.1, none, bid_host.1.isSome, none⟩,
          sqlInsertRow mainTbl row, branchTbl, [.primaryWrite true]⟩
      | some h =>
        if o.branchInsertOk then
          ⟨⟨200, true, some o.timelineId, bid_host.1, some h, bid_host.1.isSome, none⟩,
            sqlInsertRow mainTbl row, sqlInsertOnDupUpdateTreeData branchTbl row,
            [.primaryWrite true, .branchWrite h true]⟩
        else
          ⟨⟨200, true, some o.timelineId, bid_host.1, some h, bid_host.1.isSome, none⟩,
            sqlInsertRow mainTbl row, branchTbl,
            [.primaryWrite true, .branchWrite h false]⟩
    else
      ⟨⟨500, false, none, none, none, false, some "Failed to create timeline"⟩,
        mainTbl, branchTbl, [.primaryWrite false]⟩

/- ### DigestAuthClient: `tidbCloudFetch` (src/unnamed/part_000,
   src/unnamed/part_001) -/

/-- One attempt of the regex `key="([^"]+)"` at the start of `s`: the
literal pattern, then a maximal nonempty run of non-quote characters,
then a closing quote. -/
def captureHere (s pat : List Char) : Option (List Char) :=
  if pat.isPrefixOf s then
    let rest := s.drop pat.length
    let run := rest.takeWhile (fun c => c ≠ '"')
    if run = [] then none
    else
      match rest.drop run.length with
      | '"' :: _ => some run
      | _ => none
  else none

/-- First match of the capture anywhere in `s`, scanning left to right
(the semantics of `String.prototype.match` with an unanchored regex). -/
def regexCapture (s pat : List Char) : Option (List Char) :=
  match s with
  | [] => none
  | _ :: rest =>
    match captureHere s pat with
    | some run => some run
    | none => regexCapture rest pat

/-- `header.match(/key="([^"]+)"/)?.[1]`. -/
def matchToken (header key : String) : Option String :=
  (regexCapture header.toList (key ++ "=\"").toList).map fun l => String.mk l

/-- The fields interpolated into the `Authorization: Digest ...` header. -/
structure DigestParams where
  username : String
  realm : String
  nonce : String
  uri : String
  qop : String
  nc : String
  cnonce : String
  response : String
deriving DecidableEq

/-- Result of `tidbCloudFetch`: a thrown configuration error, the
initial response passed through (status ≠ 401), or the authenticated
retry carrying the computed digest header. -/
inductive FetchResult : Type where
  | configErr (msg : String)
  | passthrough
  | authRetry (p : DigestParams)
deriving DecidableEq

/-- `tidbCloudFetch` up to the decision of what to send back out.
`hash` abstracts `crypto.createHash("md5")...digest("hex")`, `cnonce`
the `crypto.randomBytes(8)` client nonce, `initialStatus` and `wwwAuth`
the first response's status and `WWW-Authenticate` header. -/
def tidbCloudFetch (hash : String → String) (publicKey privateKey : Option String)
    (method path : String) (initialStatus : Nat) (wwwAuth : Option String)
    (cnonce : String) : FetchResult :=
  if strFalsy publicKey ∨ strFalsy privateKey then
    .configErr "TiDB Cloud API keys not configured"
  else if initialStatus ≠ 401 then .passthrough
  else
    match wwwAuth with
    | none => .configErr "No WWW-Authenticate header in response"
    | some h =>
      let pk := publicKey.getD ""
      let sk := privateKey.getD ""
      let realm := (matchToken h "realm").getD ""
      let nonce := (matchToken h "nonce").getD ""
      let qop := (matchToken h "qop").getD "auth"
      let nc := "00000001"
      let ha1 := hash (pk ++ ":" ++ realm ++ ":" ++ sk)
      let ha2 := hash (method ++ ":" ++ path)
      let resp := hash (ha1 ++ ":" ++ nonce ++ ":" ++ nc ++ ":" ++ cnonce ++ ":" ++
        qop ++ ":" ++ ha2)
      .authRetry ⟨pk, realm, nonce, path, qop, nc, cnonce, resp⟩

/- ### Rate limiter (src/lib/rateLimit.ts) and the generate endpoint's
   gate (src/app/api/generate/route.ts) -/

/-- `const RATE_LIMIT_DISABLED = true`. -/
def RATE_LIMIT_DISABLED : Bool := true

/-- An entry of the shared counter map. -/
structure RateLimitEntry where
  count : Int
  resetTime : Int
deriving DecidableEq

/-- `interface RateLimitConfig`. -/
structure RateLimitConfig where
  windowMs : Int
  maxRequests : Int
deriving DecidableEq

/-- The return value of `rateLimit`. -/
structure RateLimitResult where
  allowed : Bool
  remaining : Int
  resetIn : Int
deriving DecidableEq

/-- The shared `Map<string, RateLimitEntry>` as an association list. -/
abbrev RateLimitStore := List (String × RateLimitEntry)

/-- `rateLimitStore.get(identifier)`. -/
def mapGet (store : RateLimitStore) (k : String) : Option RateLimitEntry :=
  (store.find? fun kv => kv.1 = k).map fun kv => kv.2

/-- `rateLimitStore.set(k, v)` (overwrite or append). -/
def mapSet (store : RateLimitStore) (k : String) (v : RateLimitEntry) : RateLimitStore :=
  if store.any (fun kv => kv.1 = k) then
    store.map fun kv => if kv.1 = k then (k, v) else kv
  else store ++ [(k, v)]

/-- The probabilistic sweep body: delete every expired entry. -/
def sweepStore (store : RateLimitStore) (now : Int) : RateLimitStore :=
  store.filter fun kv => ¬ kv.2.resetTime < now

/-- `rateLimit` as a state transformer.  `now` is `Date.now()`;
`sweepRoll` is whether `Math.random() < 0.01` came up. -/
def rateLimit (identifier : String) (config : RateLimitConfig)
    (store : RateLimitStore) (now : Int) (sweepRoll : Bool) :
    RateLimitResult × RateLimitStore :=
  if RATE_LIMIT_DISABLED then (⟨true, 999, 0⟩, store)
  else
    let entry := mapGet store identifier
    let store1 := if sweepRoll then sweepStore store now else store
    match entry with
    | none =>
      (⟨true, config.maxRequests - 1, config.windowMs⟩,
        mapSet store1 identifier ⟨1, now + config.windowMs⟩)
    | some e =>
      if e.resetTime < now then
        (⟨true, config.maxRequests - 1, config.windowMs⟩,
          mapSet store1 identifier ⟨1, now + config.windowMs⟩)
      else if e.count ≥ config.maxRequests then
        (⟨false, 0, e.resetTime - now⟩, store1)
      else
        (⟨true, config.maxRequests - (e.count + 1), e.resetTime - now⟩,
          mapSet store1 identifier ⟨e.count + 1, e.resetTime⟩)

/-- `const RATE_LIMIT_CONFIG = { windowMs: 60000, maxRequests: 5 }`
(src/app/api/generate/route.ts). -/
def RATE_LIMIT_CONFIG : RateLimitConfig := ⟨60000, 5⟩

/-- The generate POST handler's rate-limit gate: `some 429` when the
request is rejected, `none` when processing continues. -/
def generateRateGate (clientIP : String) (store : RateLimitStore) (now : Int)
    (sweepRoll : Bool) : Option Nat :=
  if ¬ (rateLimit ("generate:" ++ clientIP) RATE_LIMIT_CONFIG store now sweepRoll).1.allowed
  then some 429 else none

/- ### Concrete example data used by witnesses -/

/-- A primary-store row whose record has a branch endpoint. -/
def exRowBranched : TimelineRow :=
  ⟨"t1", "s1", "Main", none, some "b1", some "h1", "P1", none⟩

/-- A primary-store row whose record has no branch. -/
def exRowPlain : TimelineRow :=
  ⟨"t2", "s1", "NB", none, none, none, "P1", none⟩

/-- The row the example POST would insert. -/
def exRowInserted : TimelineRow :=
  ⟨"t1", "s1", "Main", none, none, some "h1", "P2", none⟩

/-- A POST oracle whose branch provisioning fully succeeds. -/
def exOracle : PostOracle :=
  ⟨"t9", false, true, some "b1", false, true, some "h1", true, true⟩

/-- Grandchild node of the example tree. -/
def exNodeA1 : LifeNode := .mk ⟨"a1", "A1", "", .y10, .neutral, some 100⟩ none

/-- First child of the example tree. -/
def exNodeA : LifeNode := .mk ⟨"a", "A", "", .y5, .positive, some 60⟩ (some [exNodeA1])

/-- Second child of the example tree. -/
def exNodeB : LifeNode := .mk ⟨"b", "B", "", .y5, .negative, some 40⟩ none

/-- A two-level example tree. -/
def exTree : LifeNode :=
  .mk ⟨"root", "r", "", .now, .neutral, none⟩ (some [exNodeA, exNodeB])

/-- The replacement children used by the tree witnesses. -/
def exNewChildren : List LifeNode :=
  [.mk ⟨"c", "C", "", .y10, .positive, some 100⟩ none]

/- ### Helper lemmas about the tree operations -/

/-- A subtree in which the id does not occur is returned untouched by
`replaceSubtreeAtNode` (tree and forest versions together). -/
theorem findNone_replace_self (id : String) (ncs : List LifeNode) :
    (∀ t, findNodeById t id = none → replaceSubtreeAtNode t id ncs = t) ∧
    (∀ l, findInList l id = none → replaceInList l id ncs = l) := by
  have hnil : findInList [] id = none → replaceInList [] id ncs = [] := by
    intro _
    simp [replaceInList]
  have hcons : ∀ c rest,
      (findNodeById c id = none → replaceSubtreeAtNode c id ncs = c) →
      (findInList rest id = none → replaceInList rest id ncs = rest) →
      (findInList (c :: rest) id = none → replaceInList (c :: rest) id ncs = c :: rest) := by
    intro c rest ih1 ih2 h
    rw [findInList] at h
    rw [replaceInList]
    cases hc : findNodeById c id with
    | some f => rw [hc] at h; exact absurd h (by simp)
    | none =>
      rw [hc] at h
      rw [ih1 hc, ih2 h]
  have hmk : ∀ d ch,
      (∀ cs, ch = some cs →
        (findInList cs id = none → replaceInList cs id ncs = cs)) →
      (findNodeById (LifeNode.mk d ch) id = none →
        replaceSubtreeAtNode (LifeNode.mk d ch) id ncs = LifeNode.mk d ch) := by
    intro d ch ihq h
    cases ch with
    | none =>
      rw [findNodeById] at h
      rw [replaceSubtreeAtNode]
      by_cases hid : d.nodeId = id
      · rw [if_pos hid] at h; exact absurd h (by simp)
      · rw [if_neg hid]
    | some cs =>
      rw [findNodeById] at h
      rw [replaceSubtreeAtNode]
      by_cases hid : d.nodeId = id
      · rw [if_pos hid] at h; exact absurd h (by simp)
      · rw [if_neg hid] at h
        rw [if_neg hid, ihq cs rfl h]
  exact ⟨lifeNode_ind _ _ hnil hcons hmk, lifeNode_list_ind _ _ hnil hcons hmk⟩

/-- `findNodeById` is exactly the first match of the preorder
(document-order) listing; likewise for forests. -/
theorem find_eq_preorder_find? (id : String) :
    (∀ t, findNodeById t id = (preorder t).find? (fun n => n.data.nodeId == id)) ∧
    (∀ l, findInList l id = (preorderList l).find? (fun n => n.data.nodeId == id)) := by
  have hnil : findInList [] id = (preorderList []).find? (fun n => n.data.nodeId == id) := by
    simp [findInList, preorderList]
  have hcons : ∀ c rest,
      findNodeById c id = (preorder c).find? (fun n => n.data.nodeId == id) →
      findInList rest id = (preorderList rest).find? (fun n => n.data.nodeId == id) →
      findInList (c :: rest) id =
        (preorderList (c :: rest)).find? (fun n => n.data.nodeId == id) := by
    intro c rest ih1 ih2
    rw [findInList, preorderList, List.find?_append, ← ih1, ← ih2]
    cases hc : findNodeById c id <;> simp [Option.or]
  have hmk : ∀ d ch,
      (∀ cs, ch = some cs →
        findInList cs id = (preorderList cs).find? (fun n => n.data.nodeId == id)) →
      findNodeById (LifeNode.mk d ch) id =
        (preorder (LifeNode.mk d ch)).find? (fun n => n.data.nodeId == id) := by
    intro d ch ihq
    cases ch with
    | none =>
      rw [findNodeById, preorder, List.find?_cons]
      by_cases hid : d.nodeId = id
      · simp [LifeNode.data, hid]
      · have hb : ((LifeNode.mk d none).data.nodeId == id) = false := by
          simp [LifeNode.data, hid]
        rw [hb, if_neg hid]
        simp [List.find?]
    | some cs =>
      rw [findNodeById, preorder, List.find?_cons]
      by_cases hid : d.nodeId = id
      · simp [LifeNode.data, hid]
      · have hb : ((LifeNode.mk d (some cs)).data.nodeId == id) = false := by
          simp [LifeNode.data, hid]
        rw [hb, if_neg hid]
        exact ihq cs rfl
  exact ⟨lifeNode_ind _ _ hnil hcons hmk, lifeNode_list_ind _ _ hnil hcons hmk⟩

/-- `findNodeById` misses exactly when the id occurs nowhere in the
tree's identifier listing. -/
theorem findNodeById_eq_none_iff (t : LifeNode) (id : String) :
    findNodeById t id = none ↔ id ∉ treeIds t := by
  rw [(find_eq_preorder_find? id).1, List.find?_eq_none, treeIds]
  constructor
  · intro h hmem
    rcases List.mem_map.1 hmem with ⟨n, hn, hid⟩
    exact h n hn (by simp [hid])
  · intro h n hn hb
    exact h (List.mem_map.2 ⟨n, hn, by simpa using hb⟩)

/-- Replacing at a found id keeps the first preorder match findable, now
carrying exactly the replacement children (tree and forest versions). -/
theorem find_replace_found (id : String) (ncs : List LifeNode) :
    (∀ t n, findNodeById t id = some n →
      findNodeById (replaceSubtreeAtNode t id ncs) id = some (setChildren n ncs)) ∧
    (∀ l n, findInList l id = some n →
      findInList (replaceInList l id ncs) id = some (setChildren n ncs)) := by
  have hnil : ∀ n, findInList [] id = some n →
      findInList (replaceInList [] id ncs) id = some (setChildren n ncs) := by
    intro n h
    rw [findInList] at h
    exact absurd h (by simp)
  have hcons : ∀ c rest,
      (∀ n, findNodeById c id = some n →
        findNodeById (replaceSubtreeAtNode c id ncs) id = some (setChildren n ncs)) →
      (∀ n, findInList rest id = some n →
        findInList (replaceInList rest id ncs) id = some (setChildren n ncs)) →
      (∀ n, findInList (c :: rest) id = some n →
        findInList (replaceInList (c :: rest) id ncs) id = some (setChildren n ncs)) := by
    intro c rest ih1 ih2 n h
    rw [findInList] at h
    rw [replaceInList, findInList]
    cases hc : findNodeById c id with
    | some f =>
      rw [hc] at h
      have hf : f = n := by injection h
      subst hf
      rw [ih1 f hc]
    | none =>
      rw [hc] at h
      have hcu : replaceSubtreeAtNode c id ncs = c := (findNone_replace_self id ncs).1 c hc
      rw [hcu, hc]
      exact ih2 n h
  have hmk : ∀ d ch,
      (∀ cs, ch = some cs →
        (∀ n, findInList cs id = some n →
          findInList (replaceInList cs id ncs) id = some (setChildren n ncs))) →
      (∀ n, findNodeById (LifeNode.mk d ch) id = some n →
        findNodeById (replaceSubtreeAtNode (LifeNode.mk d ch) id ncs) id =
          some (setChildren n ncs)) := by
    intro d ch ihq n h
    cases ch with
    | none =>
      rw [findNodeById] at h
      rw [replaceSubtreeAtNode]
      by_cases hid : d.nodeId = id
      · rw [if_pos hid] at h
        have hn : LifeNode.mk d none = n := by injection h
        subst hn
        rw [if_pos hid, findNodeById, if_pos hid]
        rfl
      · rw [if_neg hid] at h
        exact absurd h (by simp)
    | some cs =>
      rw [findNodeById] at h
      rw [replaceSubtreeAtNode]
      by_cases hid : d.nodeId = id
      · rw [if_pos hid] at h
        have hn : LifeNode.mk d (some cs) = n := by injection h
        subst hn
        rw [if_pos hid, findNodeById, if_pos hid]
        rfl
      · rw [if_neg hid] at h
        rw [if_neg hid, findNodeById, if_neg hid]
        exact ihq cs rfl n h
  exact ⟨lifeNode_ind _ _ hnil hcons hmk, lifeNode_list_ind _ _ hnil hcons hmk⟩

/-- The preorder listing of any listed subtree is a sublist of the
whole listing (tree and forest versions). -/
theorem preorder_mem_sublist :
    (∀ t s, s ∈ preorder t → (preorder s).Sublist (preorder t)) ∧
    (∀ l s, s ∈ preorderList l → (preorder s).Sublist (preorderList l)) := by
  have hnil : ∀ s, s ∈ preorderList [] → (preorder s).Sublist (preorderList []) := by
    intro s hs
    rw [preorderList] at hs
    exact absurd hs (by simp)
  have hcons : ∀ c rest,
      (∀ s, s ∈ preorder c → (preorder s).Sublist (preorder c)) →
      (∀ s, s ∈ preorderList rest → (preorder s).Sublist (preorderList rest)) →
      (∀ s, s ∈ preorderList (c :: rest) → (preorder s).Sublist (preorderList (c :: rest))) := by
    intro c rest ih1 ih2 s hs
    rw [preorderList] at hs ⊢
    rcases List.mem_append.1 hs with h | h
    · exact (ih1 s h).trans (List.sublist_append_left _ _)
    · exact (ih2 s h).trans (List.sublist_append_right _ _)
  have hmk : ∀ d ch,
      (∀ cs, ch = some cs →
        (∀ s, s ∈ preorderList cs → (preorder s).Sublist (preorderList cs))) →
      (∀ s, s ∈ preorder (LifeNode.mk d ch) →
        (preorder s).Sublist (preorder (LifeNode.mk d ch))) := by
    intro d ch ihq s hs
    cases ch with
    | none =>
      rw [preorder] at hs ⊢
      simp only [List.mem_singleton] at hs
      subst hs
      rw [preorder]
    | some cs =>
      rw [preorder] at hs ⊢
      rcases List.mem_cons.1 hs with h | h
      · subst h
        rw [preorder]
      · exact (ihq cs rfl s h).trans (List.sublist_cons_self _ _)
  exact ⟨lifeNode_ind _ _ hnil hcons hmk, lifeNode_list_ind _ _ hnil hcons hmk⟩

/-- An id occurring in a listed subtree occurs in the forest listing. -/
theorem mem_forestIds_of_mem (l : List LifeNode) (b : LifeNode) (x : String)
    (hb : b ∈ l) (hx : x ∈ treeIds b) : x ∈ forestIds l := by
  induction l with
  | nil => exact absurd hb (by simp)
  | cons c rest ih =>
    rw [forestIds, preorderList]
    rcases List.mem_cons.1 hb with h | h
    · subst h
      rw [List.map_append]
      exact List.mem_append.2 (Or.inl hx)
    · rw [List.map_append]
      exact List.mem_append.2 (Or.inr (ih h))

/-- Two different members of a forest both containing some id force a
duplicate in the forest's identifier listing. -/
theorem not_nodup_of_two_mem (l : List LifeNode) (a b : LifeNode) (x : String)
    (ha : a ∈ l) (hb : b ∈ l) (hab : a ≠ b)
    (hxa : x ∈ treeIds a) (hxb : x ∈ treeIds b) : ¬ (forestIds l).Nodup := by
  induction l with
  | nil => exact absurd ha (by simp)
  | cons c rest ih =>
    intro hnd
    rw [forestIds, preorderList, List.map_append] at hnd
    rcases List.nodup_append.1 hnd with ⟨_, hnd2, hdisj⟩
    rcases List.mem_cons.1 ha with h1 | h1 <;> rcases List.mem_cons.1 hb with h2 | h2
    · exact hab (h1.trans h2.symm)
    · subst h1
      exact hdisj hxa (mem_forestIds_of_mem rest b x h2 hxb)
    · subst h2
      exact hdisj hxb (mem_forestIds_of_mem rest a x h1 hxa)
    · exact ih h1 h2 hnd2

/-- `LifeNode.children` of a node determines the shape of its preorder
listing. -/
theorem preorder_of_children_some (p : LifeNode) (cl : List LifeNode)
    (h : p.children = some cl) : preorder p = p :: preorderList cl := by
  cases p with
  | mk d ch =>
    rw [LifeNode.children] at h
    subst h
    rw [preorder]

/- ### Claim theorems: TreeMutator -/

/-- C7: for every tree and identifier that occurs nowhere in it,
`replaceSubtreeAtNode` returns a tree equal (deep-equal, as the
embedding is a pure total function that cannot raise or mutate its
argument in place) to the input. -/
theorem replaceSubtree_absent_id (tree : LifeNode) (id : String)
    (ncs : List LifeNode) (h : id ∉ treeIds tree) :
    replaceSubtreeAtNode tree id ncs = tree :=
  (findNone_replace_self id ncs).1 tree ((findNodeById_eq_none_iff tree id).2 h)

/-- Witness for C7 at a concrete tree and absent identifier. -/
theorem replaceSubtree_absent_id_witness :
    "zz" ∉ treeIds exTree ∧ replaceSubtreeAtNode exTree "zz" exNewChildren = exTree := by
  have h : "zz" ∉ treeIds exTree := by
    have he : treeIds exTree = ["root", "a", "a1", "b"] := by
      simp [treeIds, preorder, preorderList, exTree, exNodeA, exNodeA1, exNodeB,
        LifeNode.data]
    rw [he]
    decide
  exact ⟨h, replaceSubtree_absent_id exTree "zz" exNewChildren h⟩

/-- C8: in a tree with (per the data-model invariant) unique node
identifiers, replacing at a found identifier and then searching for the
same identifier returns that node with exactly the replacement children
and its other fields unchanged; every sibling subtree (any other member
of any listed node's children) is returned byte-for-byte unchanged; and
`findNodeById` is the first match in depth-first document order. -/
theorem replaceSubtree_find_same_id (tree : LifeNode) (id : String)
    (ncs : List LifeNode) (n : LifeNode)
    (hnd : (treeIds tree).Nodup)
    (hfind : findNodeById tree id = some n) :
    findNodeById (replaceSubtreeAtNode tree id ncs) id = some (setChildren n ncs) ∧
    (∀ p, p ∈ preorder tree → ∀ cl, p.children = some cl →
      ∀ c1, c1 ∈ cl → ∀ c2, c2 ∈ cl → findNodeById c1 id ≠ none → c2 ≠ c1 →
        replaceSubtreeAtNode c2 id ncs = c2) ∧
    findNodeById tree id = (preorder tree).find? (fun m => m.data.nodeId == id) := by
  refine ⟨(find_replace_found id ncs).1 tree n hfind, ?_, (find_eq_preorder_find? id).1 tree⟩
  intro p hp cl hcl c1 hc1 c2 hc2 hfc1 hne
  apply (findNone_replace_self id ncs).1 c2
  rw [findNodeById_eq_none_iff]
  intro hxc2
  have hxc1 : id ∈ treeIds c1 := by
    cases hfm : findNodeById c1 id with
    | none => exact absurd hfm hfc1
    | some m =>
      rw [(find_eq_preorder_find? id).1 c1] at hfm
      have hmem := List.mem_of_find?_eq_some hfm
      have hpm := List.find?_some hfm
      rw [treeIds]
      exact List.mem_map.2 ⟨m, hmem, by simpa using hpm⟩
  have hsub : (preorder p).Sublist (preorder tree) := preorder_mem_sublist.1 tree p hp
  have hndp : (treeIds p).Nodup := List.Nodup.sublist (hsub.map _) hnd
  rw [treeIds, preorder_of_children_some p cl hcl, List.map_cons] at hndp
  have hndcl : (forestIds cl).Nodup := (List.nodup_cons.1 hndp).2
  exact not_nodup_of_two_mem cl c1 c2 id hc1 hc2 (fun hab => hne hab.symm) hxc1 hxc2 hndcl

/-- Witness for C8 at a concrete tree, identifier, and replacement. -/
theorem replaceSubtree_find_same_id_witness :
    (treeIds exTree).Nodup ∧
    findNodeById exTree "a" = some exNodeA ∧
    findNodeById (replaceSubtreeAtNode exTree "a" exNewChildren) "a" =
      some (setChildren exNodeA exNewChildren) := by
  have hnd : (treeIds exTree).Nodup := by
    have he : treeIds exTree = ["root", "a", "a1", "b"] := by
      simp [treeIds, preorder, preorderList, exTree, exNodeA, exNodeA1, exNodeB,
        LifeNode.data]
    rw [he]
    decide
  have hfind : findNodeById exTree "a" = some exNodeA := by
    simp [findNodeById, findInList, exTree, exNodeA, exNodeA1, exNodeB, LifeNode.data]
  exact ⟨hnd, hfind,
    (replaceSubtree_find_same_id exTree "a" exNewChildren exNodeA hnd hfind).1⟩

/- ### Claim theorems: ReplicatedRecordStore -/

/-- C1: when the primary `UPDATE` succeeds, the PUT handler returns
success (status 200) with exactly one destination tag — `"main"` when
the record stores no branch endpoint (and no branch write is attempted),
`"both"` when the branch write succeeds, `"main-only"` when it was
attempted and failed; a branch-side failure never fails the overall
write (success holds for every branch outcome). -/
theorem put_write_destination (id td : String) (mainTbl branchTbl : List TimelineRow)
    (bOk : Bool) (t0 : TimelineRow)
    (hrow : (sqlSelectById mainTbl id).head? = some t0) :
    (putTimeline id (some td) mainTbl branchTbl true bOk).result.success = true ∧
    (putTimeline id (some td) mainTbl branchTbl true bOk).result.status = 200 ∧
    (t0.branch_host = none →
      (putTimeline id (some td) mainTbl branchTbl true bOk).result.writtenTo = some "main" ∧
      ∀ h b, DbEvent.branchWrite h b ∉
        (putTimeline id (some td) mainTbl branchTbl true bOk).trace) ∧
    (∀ h, t0.branch_host = some h →
      (putTimeline id (some td) mainTbl branchTbl true true).result.writtenTo = some "both" ∧
      (putTimeline id (some td) mainTbl branchTbl true false).result.writtenTo =
        some "main-only") := by
  cases hb : t0.branch_host with
  | none => cases bOk <;> simp [putTimeline, hrow, hb]
  | some h0 => cases bOk <;> simp [putTimeline, hrow, hb]

/-- Witness for C1 at a concrete branched record. -/
theorem put_write_destination_witness :
    (sqlSelectById [exRowBranched] "t1").head? = some exRowBranched ∧
    (putTimeline "t1" (some "P2") [exRowBranched] [] true true).result.writtenTo =
      some "both" ∧
    (putTimeline "t1" (some "P2") [exRowBranched] [] true false).result.writtenTo =
      some "main-only" := by
  have hrow : (sqlSelectById [exRowBranched] "t1").head? = some exRowBranched := by decide
  have h := (put_write_destination "t1" "P2" [exRowBranched] [] true exRowBranched
    hrow).2.2.2 "h1" (by decide)
  exact ⟨hrow, h.1, h.2⟩

/-- C2: the GET handler fails with 404 (`NotFound`) exactly when the
primary store has no row; with a stored branch endpoint, a branch read
returning a row yields that payload with provenance `"branch"`, and a
thrown branch read yields the already-fetched primary payload with
provenance `"main"` and no error to the caller. -/
theorem get_read_provenance (id : String) (mainTbl : List TimelineRow)
    (br : BranchReadOutcome) :
    ((sqlSelectById mainTbl id).head? = none →
      getTimeline id mainTbl br = ⟨404, false, none, none, some "Timeline not found"⟩) ∧
    (∀ t0, (sqlSelectById mainTbl id).head? = some t0 →
      ∀ h, t0.branch_host = some h →
        (∀ p rest, br = .rows (p :: rest) →
          getTimeline id mainTbl br = ⟨200, true, some p, some "branch", none⟩) ∧
        (br = .connFail →
          getTimeline id mainTbl br = ⟨200, true, some t0.tree_data, some "main", none⟩)) := by
  constructor
  · intro hnone
    simp [getTimeline, hnone]
  · intro t0 hrow h hb
    constructor
    · intro p rest hbr
      subst hbr
      simp [getTimeline, hrow, hb]
    · intro hbr
      subst hbr
      simp [getTimeline, hrow, hb]

/-- Witness for C2 at a concrete branched record: a present branch row
wins, a thrown branch read falls back, and a missing id is 404. -/
theorem get_read_provenance_witness :
    getTimeline "t1" [exRowBranched] (.rows ["PB"]) =
      ⟨200, true, some "PB", some "branch", none⟩ ∧
    getTimeline "t1" [exRowBranched] .connFail =
      ⟨200, true, some "P1", some "main", none⟩ ∧
    getTimeline "tX" [exRowBranched] .connFail =
      ⟨404, false, none, none, some "Timeline not found"⟩ := by
  have hrow : (sqlSelectById [exRowBranched] "t1").head? = some exRowBranched := by decide
  have h1 := ((get_read_provenance "t1" [exRowBranched] (.rows ["PB"])).2 exRowBranched
    hrow "h1" (by decide)).1 "PB" [] rfl
  have h2 := ((get_read_provenance "t1" [exRowBranched] .connFail).2 exRowBranched
    hrow "h1" (by decide)).2 rfl
  have h3 := (get_read_provenance "tX" [exRowBranched] .connFail).1 (by decide)
  exact ⟨h1, h2, h3⟩

/-- C10: a branch query that succeeds but returns no row for the id
behaves like a branch failure: the primary payload is returned with
provenance `"main"`. -/
theorem get_empty_branch_rows_fallback (id : String) (mainTbl : List TimelineRow)
    (t0 : TimelineRow) (h : String)
    (hrow : (sqlSelectById mainTbl id).head? = some t0)
    (hb : t0.branch_host = some h) :
    getTimeline id mainTbl (.rows []) =
      ⟨200, true, some t0.tree_data, some "main", none⟩ := by
  simp [getTimeline, hrow, hb]

/-- Witness for C10 at a concrete branched record. -/
theorem get_empty_branch_rows_fallback_witness :
    getTimeline "t1" [exRowBranched] (.rows []) =
      ⟨200, true, some "P1", some "main", none⟩ := by
  have hrow : (sqlSelectById [exRowBranched] "t1").head? = some exRowBranched := by decide
  exact get_empty_branch_rows_fallback "t1" [exRowBranched] exRowBranched "h1" hrow
    (by decide)

/-- C5: in both write handlers a branch-store write appears in the
trace only as the second event after a *successful* primary-store
write, and a failed primary write leaves a trace with no branch write
and a 500 response. -/
theorem store_writes_sequenced :
    (∀ id td mainTbl branchTbl pOk bOk h b,
      DbEvent.branchWrite h b ∈ (putTimeline id td mainTbl branchTbl pOk bOk).trace →
        (putTimeline id td mainTbl branchTbl pOk bOk).trace =
          [DbEvent.primaryWrite true, DbEvent.branchWrite h b]) ∧
    (∀ id td mainTbl branchTbl pOk bOk,
      DbEvent.primaryWrite false ∈ (putTimeline id td mainTbl branchTbl pOk bOk).trace →
        (putTimeline id td mainTbl branchTbl pOk bOk).trace = [DbEvent.primaryWrite false] ∧
        (putTimeline id td mainTbl branchTbl pOk bOk).result.status = 500) ∧
    (∀ sid nm td pt bf cb cid o mainTbl branchTbl h b,
      DbEvent.branchWrite h b ∈
          (postTimeline sid nm td pt bf cb cid o mainTbl branchTbl).trace →
        (postTimeline sid nm td pt bf cb cid o mainTbl branchTbl).trace =
          [DbEvent.primaryWrite true, DbEvent.branchWrite h b]) ∧
    (∀ sid nm td pt bf cb cid o mainTbl branchTbl,
      DbEvent.primaryWrite false ∈
          (postTimeline sid nm td pt bf cb cid o mainTbl branchTbl).trace →
        (postTimeline sid nm td pt bf cb cid o mainTbl branchTbl).trace =
          [DbEvent.primaryWrite false] ∧
        (postTimeline sid nm td pt bf cb cid o mainTbl branchTbl).result.status = 500) := by
  refine ⟨?_, ?_, ?_, ?_⟩
  · intro id td mainTbl branchTbl pOk bOk h b hmem
    cases td with
    | none => simp [putTimeline] at hmem
    | some td' =>
      cases hrow : (sqlSelectById mainTbl id).head? with
      | none => simp [putTimeline, hrow] at hmem
      | some t0 =>
        cases pOk with
        | false => simp [putTimeline, hrow] at hmem
        | true =>
          cases hb2 : t0.branch_host with
          | none => simp [putTimeline, hrow, hb2] at hmem
          | some h0 =>
            cases bOk with
            | false =>
              simp [putTimeline, hrow, hb2] at hmem ⊢
              exact ⟨hmem.1.symm, hmem.2⟩
            | true =>
              simp [putTimeline, hrow, hb2] at hmem ⊢
              exact ⟨hmem.1.symm, hmem.2⟩
  · intro id td mainTbl branchTbl pOk bOk hmem
    cases td with
    | none => simp [putTimeline] at hmem
    | some td' =>
      cases hrow : (sqlSelectById mainTbl id).head? with
      | none => simp [putTimeline, hrow] at hmem
      | some t0 =>
        cases pOk with
        | false => simp [putTimeline, hrow]
        | true =>
          cases hb2 : t0.branch_host with
          | none => simp [putTimeline, hrow, hb2] at hmem
          | some h0 => cases bOk <;> simp [putTimeline, hrow, hb2] at hmem
  · intro sid nm td pt bf cb cid o mainTbl branchTbl h b hmem
    by_cases hv : sid = "" ∨ nm = "" ∨ td = ""
    · simp [postTimeline, hv] at hmem
    · cases hpo : o.primaryInsertOk with
      | false => simp [postTimeline, hv, hpo] at hmem
      | true =>
        cases hbh : (provisionBranch cb cid o).2 with
        | none => simp [postTimeline, hv, hpo, hbh] at hmem
        | some h0 =>
          cases hbo : o.branchInsertOk with
          | false =>
            simp [postTimeline, hv, hpo, hbh, hbo] at hmem ⊢
            exact ⟨hmem.1.symm, hmem.2⟩
          | true =>
            simp [postTimeline, hv, hpo, hbh, hbo] at hmem ⊢
            exact ⟨hmem.1.symm, hmem.2⟩
  · intro sid nm td pt bf cb cid o mainTbl branchTbl hmem
    by_cases hv : sid = "" ∨ nm = "" ∨ td = ""
    · simp [postTimeline, hv] at hmem
    · cases hpo : o.primaryInsertOk with
      | false => simp [postTimeline, hv, hpo]
      | true =>
        cases hbh : (provisionBranch cb cid o).2 with
        | none => simp [postTimeline, hv, hpo, hbh] at hmem
        | some h0 => cases hbo : o.branchInsertOk <;>
            simp [postTimeline, hv, hpo, hbh, hbo] at hmem

/-- Witness for C5: a concrete branched PUT traces primary-then-branch,
and a concrete failed primary write traces no branch write and is 500. -/
theorem store_writes_sequenced_witness :
    (putTimeline "t1" (some "P2") [exRowBranched] [] true true).trace =
      [DbEvent.primaryWrite true, DbEvent.branchWrite "h1" true] ∧
    (putTimeline "t1" (some "P2") [exRowBranched] [] false true).trace =
      [DbEvent.primaryWrite false] ∧
    (putTimeline "t1" (some "P2") [exRowBranched] [] false true).result.status = 500 ∧
    (postTimeline "s1" "Main" "P2" none none true (some "c1") exOracle [] []).trace =
      [DbEvent.primaryWrite true, DbEvent.branchWrite "h1" true] := by
  have h1 := store_writes_sequenced.1 "t1" (some "P2") [exRowBranched] [] true true
    "h1" true (by decide)
  have h2 := store_writes_sequenced.2.1 "t1" (some "P2") [exRowBranched] [] false true
    (by decide)
  have h3 := store_writes_sequenced.2.2.1 "s1" "Main" "P2" none none true (some "c1")
    exOracle [] [] "h1" true (by decide)
  exact ⟨h1, h2.1, h2.2, h3⟩

/-- Counterexample for C4: on a record with a known branch endpoint
whose branch store lacks the row, the PUT's branch-side write reports
success (`"both"`) yet inserts nothing — the branch store stays empty —
whereas the claimed upsert semantics inserts the row. -/
theorem put_branch_write_not_upsert_cex :
    (putTimeline "t1" (some "P2") [exRowBranched] [] true true).result.writtenTo =
      some "both" ∧
    (putTimeline "t1" (some "P2") [exRowBranched] [] true true).branchTbl = [] ∧
    upsertPayloadSpec [] exRowInserted = [exRowInserted] := by decide

/-- C4 (amended): the create (POST) path's branch-side write has the
claimed upsert semantics — insert the row, or overwrite only the
payload column of an existing keyed row — while the update (PUT)
path's branch-side write is a plain payload-column `UPDATE`: it
rewrites only the payload of rows with the key and inserts nothing
when no such row exists. -/
theorem branch_write_semantics (mainTbl branchTbl : List TimelineRow)
    (id td : String) (t0 : TimelineRow) (h : String)
    (hrow : (sqlSelectById mainTbl id).head? = some t0)
    (hb : t0.branch_host = some h) :
    (putTimeline id (some td) mainTbl branchTbl true true).branchTbl =
      branchTbl.map (fun r => if r.id = id then { r with tree_data := td } else r) ∧
    (branchTbl.all (fun r => ¬ r.id = id) →
      (putTimeline id (some td) mainTbl branchTbl true true).branchTbl = branchTbl) ∧
    (∀ tbl row, sqlInsertOnDupUpdateTreeData tbl row = upsertPayloadSpec tbl row) ∧
    (∀ sid nm td2 pt bf cb cid o,
      ¬ sid = "" → ¬ nm = "" → ¬ td2 = "" →
      (provisionBranch cb cid o).2 = some h →
      o.primaryInsertOk = true → o.branchInsertOk = true →
      ∃ row, row.id = o.timelineId ∧ row.tree_data = td2 ∧
        (postTimeline sid nm td2 pt bf cb cid o mainTbl branchTbl).mainTbl =
          mainTbl ++ [row] ∧
        (postTimeline sid nm td2 pt bf cb cid o mainTbl branchTbl).branchTbl =
          upsertPayloadSpec branchTbl row) := by
  refine ⟨?_, ?_, fun tbl row => rfl, ?_⟩
  · simp [putTimeline, hrow, hb, sqlUpdateTreeData]
  · intro hall
    have h1 : (putTimeline id (some td) mainTbl branchTbl true true).branchTbl =
        branchTbl.map (fun r => if r.id = id then { r with tree_data := td } else r) := by
      simp [putTimeline, hrow, hb, sqlUpdateTreeData]
    rw [h1]
    have : ∀ r ∈ branchTbl,
        (if r.id = id then { r with tree_data := td } else r) = r := by
      intro r hr
      rw [if_neg (by simpa using List.all_eq_true.1 hall r hr)]
    rw [List.map_congr_left this]
    simp
  · intro sid nm td2 pt bf cb cid o hsid hnm htd hph hpo hbo
    refine ⟨⟨o.timelineId, sid, nm, orNull pt, (provisionBranch cb cid o).1, some h,
      td2, orNull bf⟩, rfl, rfl, ?_, ?_⟩
    · simp [postTimeline, hsid, hnm, htd, hpo, hph, hbo, sqlInsertRow]
    · simp [postTimeline, hsid, hnm, htd, hpo, hph, hbo,
        sqlInsertOnDupUpdateTreeData, upsertPayloadSpec]

/-- Witness for C4's amended claim at concrete tables and a concrete
branched POST. -/
theorem branch_write_semantics_witness :
    (putTimeline "t1" (some "P2") [exRowBranched] [exRowBranched] true true).branchTbl =
      [{ exRowBranched with tree_data := "P2" }] ∧
    (putTimeline "t1" (some "P2") [exRowBranched] [exRowPlain] true true).branchTbl =
      [exRowPlain] ∧
    ∃ row, row.id = "t9" ∧ row.tree_data = "P2" ∧
      (postTimeline "s1" "Main" "P2" none none true (some "c1") exOracle
        [exRowBranched] []).mainTbl = [exRowBranched] ++ [row] ∧
      (postTimeline "s1" "Main" "P2" none none true (some "c1") exOracle
        [exRowBranched] []).branchTbl = upsertPayloadSpec [] row := by
  have hrow : (sqlSelectById [exRowBranched] "t1").head? = some exRowBranched := by decide
  have H1 := branch_write_semantics [exRowBranched] [exRowBranched] "t1" "P2"
    exRowBranched "h1" hrow (by decide)
  have H2 := branch_write_semantics [exRowBranched] [exRowPlain] "t1" "P2"
    exRowBranched "h1" hrow (by decide)
  have H3 := branch_write_semantics [exRowBranched] [] "t1" "P2"
    exRowBranched "h1" hrow (by decide)
  refine ⟨?_, ?_, ?_⟩
  · have := H1.1
    rw [this]
    decide
  · have := H2.2.1 (by decide)
    rw [this]
  · exact H3.2.2.2 "s1" "Main" "P2" none none true (some "c1") exOracle
      (by decide) (by decide) (by decide) (by decide) rfl rfl

/- ### Claim theorems: DigestAuthClient -/

/-- Counterexample for C3: a 401 challenge whose header carries neither
a `realm` nor a `nonce` token does *not* fail fast — the client
proceeds to compute and send the authenticated retry, with both tokens
defaulted to the empty string. -/
theorem digest_missing_tokens_cex :
    matchToken "Digest qop=\"auth\"" "realm" = none ∧
    matchToken "Digest qop=\"auth\"" "nonce" = none ∧
    tidbCloudFetch (fun s => s) (some "pk") (some "sk") "GET" "/p" 401
        (some "Digest qop=\"auth\"") "cn" =
      .authRetry ⟨"pk", "", "", "/p", "auth", "00000001", "cn",
        "pk::sk::00000001:cn:auth:GET:/p"⟩ := by decide

/-- C3 (amended): the handshake fails fast with a configuration error
only when the `WWW-Authenticate` header is absent altogether; when the
header is present but carries no `realm` or `nonce` token, those values
default to the empty string and the client still computes and sends the
authenticated retry. -/
theorem digest_missing_tokens_amended (hash : String → String)
    (pk sk method path cnonce : String) (hpk : pk ≠ "") (hsk : sk ≠ "") :
    tidbCloudFetch hash (some pk) (some sk) method path 401 none cnonce =
      .configErr "No WWW-Authenticate header in response" ∧
    ∀ h, matchToken h "realm" = none → matchToken h "nonce" = none →
      ∃ p, tidbCloudFetch hash (some pk) (some sk) method path 401 (some h) cnonce =
        .authRetry p ∧ p.realm = "" ∧ p.nonce = "" := by
  constructor
  · simp [tidbCloudFetch, strFalsy, hpk, hsk]
  · intro h hr hn
    have hx : tidbCloudFetch hash (some pk) (some sk) method path 401 (some h) cnonce =
        .authRetry ⟨pk, (matchToken h "realm").getD "", (matchToken h "nonce").getD "",
          path, (matchToken h "qop").getD "auth", "00000001", cnonce,
          hash (hash (pk ++ ":" ++ (matchToken h "realm").getD "" ++ ":" ++ sk) ++ ":" ++
            (matchToken h "nonce").getD "" ++ ":" ++ "00000001" ++ ":" ++ cnonce ++ ":" ++
            (matchToken h "qop").getD "auth" ++ ":" ++ hash (method ++ ":" ++ path))⟩ := by
      simp [tidbCloudFetch, strFalsy, hpk, hsk]
    exact ⟨_, hx, by simp [hr], by simp [hn]⟩

/-- Witness for C3's amended claim at a concrete token-free header. -/
theorem digest_missing_tokens_amended_witness :
    tidbCloudFetch (fun s => s) (some "pk") (some "sk") "GET" "/p" 401 none "cn" =
      .configErr "No WWW-Authenticate header in response" ∧
    ∃ p, tidbCloudFetch (fun s => s) (some "pk") (some "sk") "GET" "/p" 401
        (some "Digest qop=\"auth\"") "cn" =
      .authRetry p ∧ p.realm = "" ∧ p.nonce = "" := by
  have H := digest_missing_tokens_amended (fun s => s) "pk" "sk" "GET" "/p" "cn"
    (by decide) (by decide)
  exact ⟨H.1, H.2 "Digest qop=\"auth\"" (by decide) (by decide)⟩

/-- C6: the authenticated retry carries exactly the documented digest
credential: `response = hash(HA1:nonce:nc:cnonce:qop:HA2)` with
`HA1 = hash(username:realm:password)`, `HA2 = hash(method:uri)`, the
fixed first-use nonce-count `"00000001"`, and the quality indicator
defaulting to `"auth"` when absent from the challenge. -/
theorem digest_response_formula (hash : String → String)
    (pk sk method path cnonce h : String) (hpk : pk ≠ "") (hsk : sk ≠ "") :
    ∃ p, tidbCloudFetch hash (some pk) (some sk) method path 401 (some h) cnonce =
      .authRetry p ∧
      p.username = pk ∧ p.uri = path ∧ p.nc = "00000001" ∧ p.cnonce = cnonce ∧
      p.realm = (matchToken h "realm").getD "" ∧
      p.nonce = (matchToken h "nonce").getD "" ∧
      p.qop = (matchToken h "qop").getD "auth" ∧
      p.response =
        hash (hash (pk ++ ":" ++ (matchToken h "realm").getD "" ++ ":" ++ sk) ++ ":" ++
          (matchToken h "nonce").getD "" ++ ":" ++ "00000001" ++ ":" ++ cnonce ++ ":" ++
          (matchToken h "qop").getD "auth" ++ ":" ++
          hash (method ++ ":" ++ path)) := by
  have hx : tidbCloudFetch hash (some pk) (some sk) method path 401 (some h) cnonce =
      .authRetry ⟨pk, (matchToken h "realm").getD "", (matchToken h "nonce").getD "",
        path, (matchToken h "qop").getD "auth", "00000001", cnonce,
        hash (hash (pk ++ ":" ++ (matchToken h "realm").getD "" ++ ":" ++ sk) ++ ":" ++
          (matchToken h "nonce").getD "" ++ ":" ++ "00000001" ++ ":" ++ cnonce ++ ":" ++
          (matchToken h "qop").getD "auth" ++ ":" ++ hash (method ++ ":" ++ path))⟩ := by
    simp [tidbCloudFetch, strFalsy, hpk, hsk]
  exact ⟨_, hx, rfl, rfl, rfl, rfl, rfl, rfl, rfl, rfl⟩

/-- Witness for C6 at concrete keys and a challenge with `realm` and
`nonce` but no `qop` token (exercising the `"auth"` default). -/
theorem digest_response_formula_witness :
    ∃ p, tidbCloudFetch (fun s => s) (some "pk") (some "sk") "GET" "/p" 401
        (some "Digest realm=\"r\", nonce=\"n\"") "cn" =
      .authRetry p ∧
      p.username = "pk" ∧ p.uri = "/p" ∧ p.nc = "00000001" ∧ p.cnonce = "cn" ∧
      p.realm = (matchToken "Digest realm=\"r\", nonce=\"n\"" "realm").getD "" ∧
      p.nonce = (matchToken "Digest realm=\"r\", nonce=\"n\"" "nonce").getD "" ∧
      p.qop = (matchToken "Digest realm=\"r\", nonce=\"n\"" "qop").getD "auth" ∧
      p.response =
        (fun s => s) ((fun s => s) ("pk" ++ ":" ++
          (matchToken "Digest realm=\"r\", nonce=\"n\"" "realm").getD "" ++ ":" ++ "sk")
            ++ ":" ++
          (matchToken "Digest realm=\"r\", nonce=\"n\"" "nonce").getD "" ++ ":" ++
          "00000001" ++ ":" ++ "cn" ++ ":" ++
          (matchToken "Digest realm=\"r\", nonce=\"n\"" "qop").getD "auth" ++ ":" ++
          (fun s => s) ("GET" ++ ":" ++ "/p")) :=
  digest_response_formula (fun s => s) "pk" "sk" "GET" "/p" "cn"
    "Digest realm=\"r\", nonce=\"n\"" (by decide) (by decide)

/- ### Claim theorems: rate limiter -/

/-- C9: with the compile-time kill switch on, `rateLimit` returns
`{allowed: true, remaining: 999, resetIn: 0}` for every identifier,
configuration, store state, clock and sweep roll, leaves the store
untouched, and therefore the generate endpoint's gate never produces a
429 rejection. -/
theorem rateLimit_disabled_no_429 :
    (∀ identifier config store now sweepRoll,
      rateLimit identifier config store now sweepRoll =
        (⟨true, 999, 0⟩, store)) ∧
    (∀ ip store now sweepRoll, generateRateGate ip store now sweepRoll = none) := by
  constructor
  · intro identifier config store now sweepRoll
    simp [rateLimit, RATE_LIMIT_DISABLED]
  · intro ip store now sweepRoll
    simp [generateRateGate, rateLimit, RATE_LIMIT_DISABLED]
